import Mathlib

/-!
Shallow embedding of `src/index/blockfilterindex.cpp` (lbrycrd block filter
index, sqlite backend), together with the spec-level collaborators it uses
(chain nodes, the filter table, the filter-type registry), and theorems
settling the claims about it.

Machine integers: C++ `int` heights are modelled as `Int` (no overflow is
reachable in the claims' ranges); hashes (`uint256`) are opaque and modelled
as `Nat`; byte blobs as `List Nat`.
-/

namespace BlockFilterIdx

/-- A block hash (`uint256`), opaque identity. -/
abbrev Hash := Nat

/-- Modelled from the spec: a Chain Node (`CBlockIndex`) exposes `height`,
`blockHash` and `parent`; heights are "assumed given and correct", i.e. the
root has height 0 and each node's height is its parent's plus one, so we
derive `nHeight` from the parent chain.  `pprev` of the root is `none`
(the C++ null pointer). -/
inductive CBlockIndex : Type where
  | mk (hash : Hash) (pprev : Option CBlockIndex) : CBlockIndex

/-- `GetBlockHash()` of a chain node. -/
def CBlockIndex.GetBlockHash : CBlockIndex → Hash
  | .mk h _ => h

/-- The `pprev` pointer of a chain node (`none` = null). -/
def CBlockIndex.pprev : CBlockIndex → Option CBlockIndex
  | .mk _ p => p

/-- The `nHeight` field: 0 at the root, parent's height + 1 otherwise. -/
def CBlockIndex.nHeight : CBlockIndex → Int
  | .mk _ none => 0
  | .mk _ (some p) => p.nHeight + 1

/-- One row of the per-filter-type sqlite table:
`(height INTEGER, blockHash BLOB, filterHash BLOB, filter BLOB,
PRIMARY KEY(height, blockHash))`.  `height` is nullable. -/
structure FilterRow where
  height : Option Int
  blockHash : Hash
  filterHash : Hash
  filter : List Nat
  deriving Repr, DecidableEq

/-- The table contents, in storage order. -/
abbrev DB := List FilterRow

/-- A `BlockFilter` value as constructed by the lookup code:
`BlockFilter(m_filter_type, hash, filter)`. -/
structure BlockFilter where
  filterType : Nat
  blockHash : Hash
  filter : List Nat
  deriving Repr, DecidableEq

/-- `GetBlockHash()` of a `BlockFilter`. -/
def BlockFilter.GetBlockHash (f : BlockFilter) : Hash := f.blockHash

/-- Insert a row in front of a list sorted by descending height, keeping it
sorted (stable: equal heights keep their relative storage order). -/
def insertDescByHeight (r : FilterRow) : List FilterRow → List FilterRow
  | [] => [r]
  | x :: xs =>
      if x.height.getD 0 < r.height.getD 0 then r :: x :: xs
      else x :: insertDescByHeight r xs

/-- The bulk query `SELECT height, blockHash, filter FROM t WHERE height
BETWEEN lo AND hi ORDER BY height DESC`: rows whose (non-null) height lies in
`[lo, hi]`, sorted by height descending (SQL leaves the order of rows with
equal heights unspecified; we keep storage order there). -/
def heightRangeQuery (db : DB) (lo hi : Int) : List FilterRow :=
  (db.filter fun r => match r.height with
    | some h => decide (lo ≤ h) && decide (h ≤ hi)
    | none => false).foldr insertDescByHeight []

/-- `temp.emplace(height, filter)` on `std::unordered_map<int, BlockFilter>`:
inserts only when the key is absent. -/
def emplaceTemp (m : List (Int × BlockFilter)) (k : Int) (v : BlockFilter) :
    List (Int × BlockFilter) :=
  if (m.find? fun p => p.1 == k).isSome then m else m ++ [(k, v)]

/-- Build the transient height-to-filter map from the bulk query results,
as the `for (auto&& row: query) ... temp.emplace(height, BlockFilter(...))`
loop does. -/
def buildTemp (ft : Nat) (rows : List FilterRow) : List (Int × BlockFilter) :=
  rows.foldl
    (fun m r => match r.height with
      | some h => emplaceTemp m h ⟨ft, r.blockHash, r.filter⟩
      | none => m) []

/-- `temp.find(h)` on the transient map. -/
def findTemp (m : List (Int × BlockFilter)) (h : Int) : Option BlockFilter :=
  (m.find? fun p => p.1 == h).map (·.2)

/-- After `filters_out.push_back(std::move(hit->second))` the map entry at
key `h` remains present with its `uint256` block hash unchanged (a moved-from
`uint256` is a byte-array copy) and its encoded filter bytes moved out
(moved-from `std::vector` left empty). -/
def markMoved (m : List (Int × BlockFilter)) (h : Int) : List (Int × BlockFilter) :=
  m.map fun p => if p.1 == h then (p.1, ⟨p.2.filterType, p.2.blockHash, []⟩) else p

/-- The fallback point query of `LookupFilterRange`:
`SELECT filter FROM t WHERE height IS NULL AND blockHash = ? LIMIT 1`. -/
def queryNullByHash (db : DB) (bh : Hash) : Option (List Nat) :=
  (db.find? fun r => r.height == none && r.blockHash == bh).map (·.filter)

/-- The per-height point query of `LookupFilterHashRange`:
`SELECT filterHash FROM t WHERE (height = ? OR height IS NULL) AND
blockHash = ? LIMIT 1`. -/
def queryHashByHeightOrNull (db : DB) (h : Int) (bh : Hash) : Option Hash :=
  (db.find? fun r => (r.height == some h || r.height == none) && r.blockHash == bh).map
    (·.filterHash)

/-- Outcome of a range lookup in the embedding: `ret success output` is a
normal C++ return (`success` the returned bool, `output` the out-vector);
`nullDeref` marks the execution reading `stop_index->nHeight` through a null
pointer; `diverge` marks fuel exhaustion (the loop not terminating within
the given number of iterations). -/
inductive RangeOutcome (α : Type) where
  | ret (success : Bool) (output : List α)
  | nullDeref
  | diverge
  deriving Repr, DecidableEq

/-- The `while (start_height <= stop_index->nHeight)` loop of
`LookupFilterRange`, one constructor-step per loop iteration (`fuel` bounds
the number of iterations; the loop body is translated line by line).  Note
the fast path ends in `continue` without advancing `stop_index`. -/
def lookupFilterRangeLoop (db : DB) (ft : Nat) (start_height : Int) :
    Nat → Option CBlockIndex → List (Int × BlockFilter) → List BlockFilter →
    RangeOutcome BlockFilter
  | 0, _, _, _ => .diverge
  | _ + 1, none, _, _ => .nullDeref
  | fuel + 1, some n, temp, acc =>
      if start_height ≤ n.nHeight then
        match findTemp temp n.nHeight with
        | some bf =>
            if bf.GetBlockHash == n.GetBlockHash then
              lookupFilterRangeLoop db ft start_height fuel (some n)
                (markMoved temp n.nHeight) (acc ++ [bf])
            else
              lookupFilterRangeLoop db ft start_height fuel n.pprev temp
                (acc ++ ((queryNullByHash db n.GetBlockHash).map
                  (fun f => BlockFilter.mk ft n.GetBlockHash f)).toList)
        | none =>
            lookupFilterRangeLoop db ft start_height fuel n.pprev temp
              (acc ++ ((queryNullByHash db n.GetBlockHash).map
                (fun f => BlockFilter.mk ft n.GetBlockHash f)).toList)
      else
        .ret (decide ((acc.length : Int) = n.nHeight - start_height + 1)) acc

/-- `BlockFilterIndex::LookupFilterRange(start_height, stop_index,
filters_out)`: the two guard checks, the bulk height-range query building
`temp`, the backward walk, and the final completeness check
`filters_out.size() == stop_index->nHeight - start_height + 1` (which reads
the walked `stop_index`, folded into the loop's exit case above). -/
def LookupFilterRange (db : DB) (ft : Nat) (start_height : Int)
    (stop_index : CBlockIndex) (fuel : Nat) : RangeOutcome BlockFilter :=
  if start_height < 0 then .ret false []
  else if start_height > stop_index.nHeight then .ret false []
  else
    lookupFilterRangeLoop db ft start_height fuel (some stop_index)
      (buildTemp ft (heightRangeQuery db start_height stop_index.nHeight)) []

/-- The `while (start_height <= stop_index->nHeight)` loop of
`LookupFilterHashRange`; every iteration runs the per-height point query and
then advances `stop_index = stop_index->pprev`, so it terminates structurally. -/
def lookupHashRangeLoop (db : DB) (start_height : Int) :
    Option CBlockIndex → List Hash → RangeOutcome Hash
  | none, _ => .nullDeref
  | some n, acc =>
      if start_height ≤ n.nHeight then
        lookupHashRangeLoop db start_height n.pprev
          (acc ++ (queryHashByHeightOrNull db n.nHeight n.GetBlockHash).toList)
      else
        .ret (decide ((acc.length : Int) = n.nHeight - start_height + 1)) acc
termination_by si _ => sizeOf si
decreasing_by
  cases n with
  | mk h p =>
      cases p with
      | none => simp [CBlockIndex.pprev]
      | some q => simp [CBlockIndex.pprev]; omega

/-- `BlockFilterIndex::LookupFilterHashRange(start_height, stop_index,
hashes_out)`: guard checks, backward walk with a per-height point query, and
the final completeness check on the walked `stop_index`. -/
def LookupFilterHashRange (db : DB) (start_height : Int)
    (stop_index : CBlockIndex) : RangeOutcome Hash :=
  if start_height < 0 then .ret false []
  else if start_height > stop_index.nHeight then .ret false []
  else lookupHashRangeLoop db start_height (some stop_index) []

/-- Outcome of a single-item lookup: `ret success value` a normal return
(`value` what was written to the out-parameter, if anything); `oob` the
access `filters[0]` on an empty vector (out of bounds); the other two
propagate from the range call. -/
inductive LookupOutcome (α : Type) where
  | ret (success : Bool) (value : Option α)
  | oob
  | nullDeref
  | diverge
  deriving Repr, DecidableEq

/-- `BlockFilterIndex::LookupFilter(block_index, filter_out)`: calls
`LookupFilterRange(block_index->nHeight, block_index, filters)`, returns
false on failure, otherwise moves `filters[0]` into the out-parameter and
returns true. -/
def LookupFilter (db : DB) (ft : Nat) (block_index : CBlockIndex)
    (fuel : Nat) : LookupOutcome BlockFilter :=
  match LookupFilterRange db ft block_index.nHeight block_index fuel with
  | .ret false _ => .ret false none
  | .ret true [] => .oob
  | .ret true (f :: _) => .ret true (some f)
  | .nullDeref => .nullDeref
  | .diverge => .diverge

/-- `BlockFilterIndex::LookupFilterHeader(block_index, header_out)`: same
shape over `LookupFilterHashRange`. -/
def LookupFilterHeader (db : DB) (block_index : CBlockIndex) :
    LookupOutcome Hash :=
  match LookupFilterHashRange db block_index.nHeight block_index with
  | .ret false _ => .ret false none
  | .ret true [] => .oob
  | .ret true (h :: _) => .ret true (some h)
  | .nullDeref => .nullDeref
  | .diverge => .diverge

/-- Modelled from the spec: `BlockFilterTypeName` (declared in
`blockfilter.h`, definition not under `src/`) maps each recognized
filter-type descriptor 1:1 to a table name and an unrecognized descriptor to
the empty string; the only recognized descriptor is the basic one (tag 0). -/
def BlockFilterTypeName (t : Nat) : String :=
  if t = 0 then "basic" else ""

/-- The sqlite-connection state the constructor manipulates: whether the
per-filter-type table exists, its rows, and whether a standing transaction
has been begun. -/
structure DBState where
  tableExists : Bool
  rows : List FilterRow
  inTransaction : Bool
  deriving Repr, DecidableEq

/-- Result of running `BlockFilterIndex::BlockFilterIndex`:
`throwInvalid st` models `throw std::invalid_argument("unknown filter_type")`
with the table state untouched, `ok st` a completed construction. -/
inductive CtorResult where
  | throwInvalid (st : DBState)
  | ok (st : DBState)
  deriving Repr, DecidableEq

/-- `BlockFilterIndex::BlockFilterIndex(filter_type, n_cache_size, f_memory,
f_wipe)`: resolves the filter-type name and throws if it is empty (before any
table statement); then `CREATE TABLE IF NOT EXISTS`, `DELETE FROM` when
`f_wipe`, and `BEGIN`.  The cache-size and memory flags only tune pragmas and
the file path, not the logical table state. -/
def BlockFilterIndexCtor (filter_type : Nat) (_n_cache_size : Nat)
    (_f_memory : Bool) (f_wipe : Bool) (st : DBState) : CtorResult :=
  if (BlockFilterTypeName filter_type).isEmpty then .throwInvalid st
  else
    let created : DBState :=
      { tableExists := true
        rows := if st.tableExists then st.rows else []
        inTransaction := st.inTransaction }
    let wiped : DBState := if f_wipe then { created with rows := [] } else created
    .ok { wiped with inTransaction := true }

/-- An Index Instance as held by the registry map: its filter type and the
resolved table name. -/
structure BFIndexInstance where
  m_filter_type : Nat
  m_filter_name : String
  deriving Repr, DecidableEq

/-- The instance `InitBlockFilterIndex` constructs for a descriptor. -/
def mkInstance (t : Nat) : BFIndexInstance :=
  ⟨t, BlockFilterTypeName t⟩

/-- The process-wide `std::map<BlockFilterType, BlockFilterIndex>
g_filter_indexes`, as an association list keyed by descriptor. -/
abbrev Registry := List (Nat × BFIndexInstance)

/-- Key lookup in the registry map. -/
def regFind (reg : Registry) (t : Nat) : Option BFIndexInstance :=
  (reg.find? fun p => p.1 == t).map (·.2)

/-- `GetBlockFilterIndex(filter_type)`: `g_filter_indexes.find`, null when
absent. -/
def GetBlockFilterIndex (reg : Registry) (t : Nat) : Option BFIndexInstance :=
  regFind reg t

/-- `InitBlockFilterIndex(filter_type, ...)`: `g_filter_indexes.emplace`
keyed by the descriptor; inserts a newly constructed instance and returns
true exactly when the key was absent. -/
def InitBlockFilterIndex (reg : Registry) (t : Nat) : Registry × Bool :=
  if (regFind reg t).isSome then (reg, false)
  else ((t, mkInstance t) :: reg, true)

/-- `DestroyBlockFilterIndex(filter_type)`: `g_filter_indexes.erase`,
returning whether a mapping was erased. -/
def DestroyBlockFilterIndex (reg : Registry) (t : Nat) : Registry × Bool :=
  (reg.filter fun p => p.1 ≠ t, (regFind reg t).isSome)

/-- `DestroyAllBlockFilterIndexes()`: `g_filter_indexes.clear()`. -/
def DestroyAllBlockFilterIndexes (_reg : Registry) : Registry := []

/-- The table-wide dual-key invariant of §3 of the spec: for a given
`blockHash` at most one record, and non-null (active-chain) heights are
unique across records. -/
def DBInv (db : DB) : Prop :=
  db.Pairwise fun r1 r2 => r1.blockHash ≠ r2.blockHash ∧
    (r1.height.isSome = true → r1.height ≠ r2.height)

instance (db : DB) : Decidable (DBInv db) := by
  unfold DBInv
  exact inferInstance

/-! Concrete chain and table fixtures used by the claims' theorems.
`rootA` is the chain root (hash 10, height 0); `nodeB` (hash 11) and the
competing `nodeX`/`nodeY` (hashes 20/21) sit at height 1; `nodeC` (hash 12)
at height 2 on top of `nodeB`. -/

/-- Chain root, hash 10, height 0. -/
def rootA : CBlockIndex := .mk 10 none

/-- Node at height 1 on top of `rootA`, hash 11. -/
def nodeB : CBlockIndex := .mk 11 (some rootA)

/-- Node at height 2 on top of `nodeB`, hash 12. -/
def nodeC : CBlockIndex := .mk 12 (some nodeB)

/-- A displaced competitor of `nodeY` at height 1, hash 20. -/
def nodeX : CBlockIndex := .mk 20 (some rootA)

/-- The active-chain node at height 1 after the reorg, hash 21. -/
def nodeY : CBlockIndex := .mk 21 (some rootA)

/-- Table holding exactly the height-indexed record of block 11 at height 1. -/
def dbB : DB := [⟨some 1, 11, 101, [1]⟩]

/-- Table after a reorg at height 1: block 20's record displaced
(height null), block 21's record active at height 1. -/
def dbReorg : DB := [⟨none, 20, 201, [2]⟩, ⟨some 1, 21, 211, [3]⟩]

/-- Table holding only hash-indexed (height-null) records for blocks 12
and 11. -/
def dbNullCB : DB := [⟨none, 12, 102, [4]⟩, ⟨none, 11, 101, [5]⟩]

/-! Helper lemmas shared by the claims' theorems. -/

/-- Heights derived from the parent chain are non-negative. -/
theorem CBlockIndex.nHeight_nonneg : ∀ n : CBlockIndex, 0 ≤ n.nHeight
  | .mk _ none => by simp [CBlockIndex.nHeight]
  | .mk _ (some p) => by
      have h := CBlockIndex.nHeight_nonneg p
      simp only [CBlockIndex.nHeight]
      omega

/-- Moving a hit out of the transient map keeps its key present, with the
block hash unchanged and the filter bytes emptied. -/
theorem findTemp_markMoved (m : List (Int × BlockFilter)) (h : Int)
    (bf : BlockFilter) (hf : findTemp m h = some bf) :
    findTemp (markMoved m h) h = some ⟨bf.filterType, bf.blockHash, []⟩ := by
  induction m with
  | nil => simp [findTemp] at hf
  | cons q rest ih =>
      cases hq : (q.1 == h) with
      | true =>
          have hf2 : q.2 = bf := by
            simpa [findTemp, List.find?, hq] using hf
          subst hf2
          simp [findTemp, markMoved, List.find?, hq]
      | false =>
          have hf2 : findTemp rest h = some bf := by
            simpa [findTemp, List.find?, hq] using hf
          simpa [findTemp, markMoved, List.find?, hq] using ih hf2

/-- Once the backward walk of `LookupFilterRange` takes the fast path at a
node (a `temp` hit whose stored block hash matches the node), the `continue`
statement skips the `stop_index = stop_index->pprev` advance; the moved-from
map entry keeps its matching block hash, so every later iteration takes the
fast path at the same node again and the loop never terminates. -/
theorem lookupFilterRangeLoop_stuck (db : DB) (ft : Nat) (s : Int)
    (n : CBlockIndex) (hle : s ≤ n.nHeight) :
    ∀ (fuel : Nat) (temp : List (Int × BlockFilter)) (acc : List BlockFilter)
      (bf : BlockFilter), findTemp temp n.nHeight = some bf →
      bf.GetBlockHash = n.GetBlockHash →
      lookupFilterRangeLoop db ft s fuel (some n) temp acc = .diverge
  | 0, _, _, _, _, _ => rfl
  | fuel + 1, temp, acc, bf, hfind, hhash => by
      have hbeq : (bf.GetBlockHash == n.GetBlockHash) = true := by
        simp [hhash]
      simp only [lookupFilterRangeLoop, if_pos hle, hfind, hbeq, if_true]
      exact lookupFilterRangeLoop_stuck db ft s n hle fuel _ _
        ⟨bf.filterType, bf.blockHash, []⟩ (findTemp_markMoved temp n.nHeight bf hfind)
        hhash

/-- With `start_height = 0` the hash-range walk never exits through the
`else` branch: every chain node has non-negative height, so the walk steps
past the root and the next read of `stop_index->nHeight` goes through the
null parent pointer. -/
theorem lookupHashRangeLoop_start_zero (db : DB) :
    ∀ (n : CBlockIndex) (acc : List Hash),
      lookupHashRangeLoop db 0 (some n) acc = .nullDeref
  | .mk h none, acc => by
      rw [lookupHashRangeLoop.eq_2]
      rw [if_pos (CBlockIndex.nHeight_nonneg _)]
      rw [show (CBlockIndex.mk h none).pprev = none from rfl]
      rw [lookupHashRangeLoop.eq_1]
  | .mk h (some p), acc => by
      rw [lookupHashRangeLoop.eq_2]
      rw [if_pos (CBlockIndex.nHeight_nonneg _)]
      exact lookupHashRangeLoop_start_zero db p _

/-- Erasing a key from the registry map leaves no mapping for it. -/
theorem regFind_erase (reg : Registry) (t : Nat) :
    regFind (reg.filter fun p => p.1 ≠ t) t = none := by
  unfold regFind
  rw [List.find?_eq_none.mpr]
  · rfl
  · intro x hx
    have hmem := (List.mem_filter.mp hx).2
    simp at hmem ⊢
    exact hmem

/-! The claims. -/

/-- C1: refuted on the code.  With the height-indexed record of block 11
present at height 1, `LookupFilterRange(1, nodeB)` takes the fast path,
whose `continue` never advances `stop_index`, and loops forever instead of
returning the single record; and with an empty table the same call returns
success with zero records (the final check compares against the advanced
`stop_index`, demanding `0` records), not `stopNode.height - startHeight + 1`. -/
theorem C1_range_success_condition_broken :
    (∀ fuel : Nat, LookupFilterRange dbB 0 1 nodeB fuel = .diverge) ∧
    LookupFilterRange ([] : DB) 0 1 nodeB 10 = .ret true [] := by
  constructor
  · intro fuel
    show lookupFilterRangeLoop dbB 0 1 fuel (some nodeB)
      (buildTemp 0 (heightRangeQuery dbB 1 nodeB.nHeight)) [] = .diverge
    exact lookupFilterRangeLoop_stuck dbB 0 1 nodeB (by decide) fuel _ _
      ⟨0, 11, [1]⟩ (by decide) rfl
  · rfl

/-- C2: refuted on the code.  After the reorg at height 1 (block 20
displaced to the hash index, block 21 active), the call against the tip
whose ancestor at height 1 is block 20 does recover 20's record through the
`height IS NULL` fallback, but the call still returns failure (broken final
check); the call against the tip whose ancestor is block 21 hits the
height index and loops forever. -/
theorem C2_reorg_lookup_broken :
    LookupFilterRange dbReorg 0 1 nodeX 10 =
      .ret false [⟨0, 20, [2]⟩] ∧
    (∀ fuel : Nat, LookupFilterRange dbReorg 0 1 nodeY fuel = .diverge) := by
  constructor
  · rfl
  · intro fuel
    show lookupFilterRangeLoop dbReorg 0 1 fuel (some nodeY)
      (buildTemp 0 (heightRangeQuery dbReorg 1 nodeY.nHeight)) [] = .diverge
    exact lookupFilterRangeLoop_stuck dbReorg 0 1 nodeY (by decide) fuel _ _
      ⟨0, 21, [3]⟩ (by decide) rfl

/-- C3: confirmed.  For every table contents, both range lookups return
false with an untouched (empty) output vector whenever `startHeight < 0` or
`startHeight > stopNode.height`; the result is the same for every `db`, so
no query and no table access is involved, and lookups never write. -/
theorem C3_invalid_range_fail_fast (db : DB) (ft : Nat) (s : Int)
    (n : CBlockIndex) (fuel : Nat) (h : s < 0 ∨ n.nHeight < s) :
    LookupFilterRange db ft s n fuel = .ret false [] ∧
    LookupFilterHashRange db s n = .ret false [] := by
  have h0 := CBlockIndex.nHeight_nonneg n
  constructor
  · unfold LookupFilterRange
    rcases h with h | h
    · rw [if_pos h]
    · rw [if_neg (by omega), if_pos (by omega)]
  · unfold LookupFilterHashRange
    rcases h with h | h
    · rw [if_pos h]
    · rw [if_neg (by omega), if_pos (by omega)]

/-- Witness for C3 at `startHeight = -1` and at `startHeight = 2 >
nodeB.height = 1`. -/
theorem C3_invalid_range_fail_fast_witness :
    (LookupFilterRange dbB 0 (-1) nodeB 10 = .ret false [] ∧
      LookupFilterHashRange dbB (-1) nodeB = .ret false []) ∧
    (LookupFilterRange dbB 0 2 nodeB 10 = .ret false [] ∧
      LookupFilterHashRange dbB 2 nodeB = .ret false []) :=
  ⟨C3_invalid_range_fail_fast dbB 0 (-1) nodeB 10 (Or.inl (by decide)),
   C3_invalid_range_fail_fast dbB 0 2 nodeB 10 (Or.inr (by decide))⟩

/-- C4: refuted on the code.  A successful call does not cover the
requested window: over the window `[1, 2]` with an empty table the filter
range call succeeds with an empty sequence (no element for heights 1 and 2),
as does the hash variant over `[1, 1]`; and when records are collected, they
are accumulated in descending height order (block 12 at height 2 first,
block 11 at height 1 second) with the call nevertheless failing. -/
theorem C4_no_ascending_coverage :
    LookupFilterRange ([] : DB) 0 1 nodeC 10 = .ret true [] ∧
    LookupFilterHashRange ([] : DB) 1 nodeB = .ret true [] ∧
    LookupFilterRange dbNullCB 0 1 nodeC 10 =
      .ret false [⟨0, 12, [4]⟩, ⟨0, 11, [5]⟩] := by
  refine ⟨rfl, ?_, rfl⟩
  simp [LookupFilterHashRange, lookupHashRangeLoop, nodeB, rootA,
    CBlockIndex.nHeight, CBlockIndex.pprev, CBlockIndex.GetBlockHash,
    queryHashByHeightOrNull, List.find?]

/-- C5: refuted on the code.  With an empty table,
`LookupFilterRange(nodeB.height, nodeB)` returns success with an empty
vector, so `LookupFilter` proceeds to read `filters[0]` out of bounds
instead of returning the record or signalling not-found; same for
`LookupFilterHeader`. -/
theorem C5_single_lookup_reads_out_of_bounds :
    LookupFilter ([] : DB) 0 nodeB 10 = .oob ∧
    LookupFilterHeader ([] : DB) nodeB = .oob := by
  constructor
  · rfl
  · simp [LookupFilterHeader, LookupFilterHashRange, lookupHashRangeLoop, nodeB,
      rootA, CBlockIndex.nHeight, CBlockIndex.pprev, CBlockIndex.GetBlockHash,
      queryHashByHeightOrNull, List.find?]

/-- C6: refuted on the code.  Over the window `[1, 1]` with block 11's
height-indexed record present, and over `[1, 2]` with hash-indexed
(height-null) records for blocks 11 and 12, every height yields exactly one
filter hash, yet both calls return failure: the completeness check compares
the count with `stop_index->nHeight - start_height + 1` computed from the
walked-past `stop_index`, which is `0`. -/
theorem C6_hash_range_completeness_inverted :
    LookupFilterHashRange dbB 1 nodeB = .ret false [101] ∧
    LookupFilterHashRange dbNullCB 1 nodeC = .ret false [102, 101] := by
  constructor <;>
    simp [LookupFilterHashRange, lookupHashRangeLoop, dbB, dbNullCB, nodeB, nodeC,
      rootA, CBlockIndex.nHeight, CBlockIndex.pprev, CBlockIndex.GetBlockHash,
      queryHashByHeightOrNull, List.find?]

/-- C7: confirmed (against the spec-modelled `BlockFilterTypeName`).  An
unrecognized descriptor makes construction throw `invalid_argument` before
any table statement, leaving the state untouched; a recognized descriptor
yields a state with the table created (existing rows kept when it already
existed), rows emptied exactly when the wipe flag is set, and a standing
transaction begun. -/
theorem C7_ctor_contract (t cache : Nat) (mem wipe : Bool) (st : DBState) :
    (t ≠ 0 → BlockFilterIndexCtor t cache mem wipe st = .throwInvalid st) ∧
    (t = 0 → BlockFilterIndexCtor t cache mem wipe st =
      .ok ⟨true, if wipe then [] else if st.tableExists then st.rows else [],
        true⟩) := by
  constructor
  · intro ht
    have hname : BlockFilterTypeName t = "" := by
      simp [BlockFilterTypeName, ht]
    unfold BlockFilterIndexCtor
    rw [hname]
    rfl
  · intro ht
    subst ht
    cases wipe <;> rfl

/-- Witness for C7: descriptor 7 is unrecognized and rejected with the
table state untouched; descriptor 0 with the wipe flag set yields an empty
table inside a transaction. -/
theorem C7_ctor_contract_witness :
    BlockFilterIndexCtor 7 1024 false false ⟨true, dbB, false⟩ =
      .throwInvalid ⟨true, dbB, false⟩ ∧
    BlockFilterIndexCtor 0 1024 false true ⟨true, dbB, false⟩ =
      .ok ⟨true, [], true⟩ :=
  ⟨(C7_ctor_contract 7 1024 false false ⟨true, dbB, false⟩).1 (by decide),
   (C7_ctor_contract 0 1024 false true ⟨true, dbB, false⟩).2 rfl⟩

/-- C8: confirmed.  Registration inserts a fresh instance and returns true
exactly when the descriptor is unmapped and is a no-op returning false
otherwise; lookup finds the registered instance; unregistering returns
whether an instance was present and removes it; after unregister or
unregister-all the lookup is empty. -/
theorem C8_registry_lifecycle (reg : Registry) (t : Nat) :
    ((InitBlockFilterIndex reg t).2 = true ↔ regFind reg t = none) ∧
    (regFind reg t = none →
      GetBlockFilterIndex (InitBlockFilterIndex reg t).1 t =
        some (mkInstance t)) ∧
    ((regFind reg t).isSome = true → InitBlockFilterIndex reg t = (reg, false)) ∧
    ((DestroyBlockFilterIndex reg t).2 = true ↔ (regFind reg t).isSome = true) ∧
    GetBlockFilterIndex (DestroyBlockFilterIndex reg t).1 t = none ∧
    GetBlockFilterIndex (DestroyAllBlockFilterIndexes reg) t = none := by
  refine ⟨?_, ?_, ?_, Iff.rfl, regFind_erase reg t, rfl⟩
  · cases hr : regFind reg t <;> simp [InitBlockFilterIndex, hr]
  · intro hr
    unfold GetBlockFilterIndex InitBlockFilterIndex
    rw [hr]
    simp [regFind, List.find?]
  · intro hr
    simp [InitBlockFilterIndex, hr]

/-- Witness for C8 on the empty registry with descriptor 0. -/
theorem C8_registry_lifecycle_witness :
    (InitBlockFilterIndex [] 0).2 = true ∧
    GetBlockFilterIndex (InitBlockFilterIndex [] 0).1 0 = some (mkInstance 0) :=
  ⟨(C8_registry_lifecycle [] 0).1.mpr rfl, (C8_registry_lifecycle [] 0).2.1 rfl⟩

/-- C9: confirmed.  In the embedding the four lookups take the table as a
read-only argument and return no table, so they leave the rows unchanged;
the only row-changing operation of this core is construction (create-table
plus optional wipe), and both of its outcomes preserve the dual-key
invariant `DBInv`. -/
theorem C9_invariant_preserved (t cache : Nat) (mem wipe : Bool)
    (st st2 : DBState) (hinv : DBInv st.rows) :
    (BlockFilterIndexCtor t cache mem wipe st = .ok st2 → DBInv st2.rows) ∧
    (BlockFilterIndexCtor t cache mem wipe st = .throwInvalid st2 →
      DBInv st2.rows) := by
  constructor
  · intro hok
    by_cases ht : (BlockFilterTypeName t).isEmpty
    · simp [BlockFilterIndexCtor, ht] at hok
    · simp [BlockFilterIndexCtor, ht] at hok
      rw [← hok]
      dsimp only
      split
      · exact List.Pairwise.nil
      · split
        · exact hinv
        · exact List.Pairwise.nil
  · intro hthrow
    by_cases ht : (BlockFilterTypeName t).isEmpty
    · simp [BlockFilterIndexCtor, ht] at hthrow
      rw [← hthrow]
      exact hinv
    · simp [BlockFilterIndexCtor, ht] at hthrow

/-- Witness for C9: wiping construction over the reorg table yields the
empty table, which satisfies the invariant. -/
theorem C9_invariant_preserved_witness :
    DBInv (DBState.mk true [] true).rows :=
  (C9_invariant_preserved 0 1024 false true ⟨true, dbReorg, false⟩
    ⟨true, [], true⟩ (by decide)).1 (by decide)

/-- C10: confirmed.  For `startHeight = 0` the backward walk steps past the
root before the loop condition and the final completeness check can read
`stop_index->nHeight` again, so the read goes through the root's null
parent pointer: for every table and every chain node the hash-range lookup
with `startHeight = 0` ends in the null-dereference branch of the
embedding, and the filter-range lookup reaches the same branch (shown at
the root node over the empty table, where no fast path intervenes). -/
theorem C10_null_parent_read_reachable :
    (∀ (db : DB) (n : CBlockIndex), LookupFilterHashRange db 0 n = .nullDeref) ∧
    LookupFilterRange ([] : DB) 0 0 rootA 10 = .nullDeref := by
  refine ⟨fun db n => ?_, rfl⟩
  have h0 := CBlockIndex.nHeight_nonneg n
  unfold LookupFilterHashRange
  rw [if_neg (by omega), if_neg (by omega)]
  exact lookupHashRangeLoop_start_zero db n []

end BlockFilterIdx
